import Mathlib

/-
Shallow embedding of `src/drivers/tcp-line/native/src/lib.rs` — a resilient
line-oriented TCP telemetry driver.  Machine floats (`f64`) are modelled as
exact rationals (`Rat`); `chrono` UTC instants are modelled as `Int`
milliseconds since the Unix epoch; `u64` counters are `Nat` with explicit
saturation at `2^64 - 1`; the `u64 as i64` cast is modelled as a wrapping
two's-complement reinterpretation.
-/

namespace TcpLine

deriving instance DecidableEq for Except

/-- The largest `u64` value; counters in the driver saturate here. -/
def U64MAX : Nat := 2 ^ 64 - 1

/-- Rust `u64::saturating_add` (arguments assumed in range). -/
def satAdd (a b : Nat) : Nat := min (a + b) U64MAX

/-- Rust `u64::saturating_mul` specialised to doubling, as in `Backoff::next`. -/
def satMul2 (n : Nat) : Nat := min (n * 2) U64MAX

/-- Rust `u64 as i64`: wrapping two's-complement reinterpretation. -/
def toI64 (n : Nat) : Int := (((n + 2 ^ 63) % 2 ^ 64 : Nat) : Int) - 2 ^ 63

/-- A JSON value as far as the driver inspects it: a number (modelled as an
exact rational, standing for the `f64` that `serde_json::Number::as_f64`
produces), a string, or anything else (bool, null, array, object). -/
inductive Jval where
  | num (q : Rat)
  | str (s : String)
  | other
deriving Repr, DecidableEq

/-- `FrameFormat` from the source: `jsonl` or `csv`. -/
inductive FrameFormat where
  | jsonl
  | csv
deriving Repr, DecidableEq

/-- `CsvConfig` from the source. -/
structure CsvConfig where
  has_header : Bool
  columns : List String
  delimiter : String
deriving Repr, DecidableEq

/-- `Offsets` from the source: additive calibration offsets for `btC`/`etC`. -/
structure Offsets where
  bt_c : Rat
  et_c : Rat
deriving Repr, DecidableEq

/-- `ReconnectConfig` from the source. -/
structure ReconnectConfig where
  enabled : Bool
  min_backoff_ms : Nat
  max_backoff_ms : Nat
deriving Repr, DecidableEq

/-- `TcpLineDriverConfig` from the source. -/
structure TcpLineDriverConfig where
  host : String
  port : Nat
  format : FrameFormat
  csv : CsvConfig
  emit_interval_ms : Nat
  dedupe_within_ms : Nat
  offsets : Offsets
  reconnect : ReconnectConfig
deriving Repr, DecidableEq

/-- `ExtraEntry` from the source. -/
structure ExtraEntry where
  key : String
  number_value : Option Rat
  text_value : Option String
deriving Repr, DecidableEq

/-- `RawTelemetrySample` from the source; `ts` is an instant in ms since epoch. -/
structure RawTelemetrySample where
  ts : Int
  bt_c : Option Rat
  et_c : Option Rat
  power_pct : Option Rat
  fan_pct : Option Rat
  drum_rpm : Option Rat
  extras : Option (List ExtraEntry)
deriving Repr, DecidableEq

/-- `ParseError` from the source. -/
inductive ParseError where
  | InvalidJson
  | InvalidTimestamp
deriving Repr, DecidableEq

/-- `RESERVED_KEYS` from the source. -/
def RESERVED_KEYS : List String := ["ts", "btC", "etC", "powerPct", "fanPct", "drumRpm"]

/-- Modelled from the library: Rust `str::trim` on a character list (leading
and trailing whitespace removed). -/
def trimList (l : List Char) : List Char :=
  ((l.dropWhile Char.isWhitespace).reverse.dropWhile Char.isWhitespace).reverse

/-- Modelled from the library: Rust `str::trim`. -/
def trimString (s : String) : String := String.mk (trimList s.data)

/-- One splitting step for `splitString`: the characters before the first
occurrence of the delimiter, and the remainder after it (when one occurs). -/
def takeUntilDelim (delim : List Char) : List Char → List Char × Option (List Char)
  | [] => ([], none)
  | c :: rest =>
    if delim.isPrefixOf (c :: rest) then ([], some ((c :: rest).drop delim.length))
    else
      let p := takeUntilDelim delim rest
      (c :: p.1, p.2)

/-- Fuelled splitting loop for `splitString`; the fuel is an upper bound on
the number of delimiter occurrences, so it is never exhausted when called
with the input length plus one. -/
def splitAux (delim : List Char) : Nat → List Char → List (List Char)
  | 0, s => [s]
  | fuel + 1, s =>
    match takeUntilDelim delim s with
    | (pre, none) => [pre]
    | (pre, some rest) => pre :: splitAux delim fuel rest

/-- Modelled from the library: Rust `str::split` with a non-empty needle
(non-overlapping leftmost matches, empty pieces kept, a trailing empty piece
when the string ends with the delimiter). -/
def splitString (delim s : String) : List String :=
  if delim = "" then [s]
  else (splitAux delim.data (s.data.length + 1) s.data).map String.mk

/-- Decimal digit value of a character. -/
def dv (c : Char) : Nat := c.toNat - 48

/-- Accumulate a list of decimal digit characters into a natural number. -/
def digitsToNat (l : List Char) : Nat := l.foldl (fun a c => a * 10 + dv c) 0

/-- Modelled from the library: Rust `str::parse::<f64>`, restricted to plain
decimal literals with an optional sign and an optional fractional part (the
exponent, `inf` and `NaN` forms are outside this model), returning the exact
rational value of the literal. -/
def parseF64String (s : String) : Option Rat :=
  let core : List Char → Option Rat := fun cs =>
    let ip := cs.takeWhile Char.isDigit
    let rest := cs.dropWhile Char.isDigit
    match rest with
    | [] => if ip.isEmpty then none else some (digitsToNat ip : Rat)
    | '.' :: frac =>
        if frac.all Char.isDigit && (!ip.isEmpty || !frac.isEmpty) then
          some ((digitsToNat ip : Rat) + (digitsToNat frac : Rat) / (10 ^ frac.length : Rat))
        else none
    | _ => none
  match s.data with
  | '-' :: cs => (core cs).map (fun q => -q)
  | '+' :: cs => core cs
  | cs => core cs

/-- `parse_number` from the source: a JSON number yields its value
(`Number::as_f64`), a non-empty string is parsed as a float, anything else is
`none`. -/
def parse_number (value : Jval) : Option Rat :=
  match value with
  | .num n => some n
  | .str s => if s = "" then none else parseF64String s
  | .other => none

/-- Days from 1970-01-01 to the given civil date (valid for years ≥ 1970),
following the standard civil-from-days era decomposition. -/
def daysFromCivil1970 (y m d : Nat) : Nat :=
  let y' := if m ≤ 2 then y - 1 else y
  let era := y' / 400
  let yoe := y' - era * 400
  let mp := (m + 9) % 12
  let doy := (153 * mp + 2) / 5 + d - 1
  let doe := yoe * 365 + yoe / 4 - yoe / 100 + doy
  era * 146097 + doe - 719468

/-- Modelled from the library: `chrono::DateTime::parse_from_rfc3339` followed
by conversion to UTC, restricted to the `YYYY-MM-DDTHH:MM:SSZ` form with years
from 1970 on; every other string is rejected with `InvalidTimestamp`, exactly
as `parse_timestamp` in the source maps any chrono error. -/
def parse_timestamp (s : String) : Except ParseError Int :=
  match s.data with
  | [y1, y2, y3, y4, '-', o1, o2, '-', d1, d2, 'T', h1, h2, ':', i1, i2, ':', c1, c2, 'Z'] =>
    if [y1, y2, y3, y4, o1, o2, d1, d2, h1, h2, i1, i2, c1, c2].all Char.isDigit then
      let y := dv y1 * 1000 + dv y2 * 100 + dv y3 * 10 + dv y4
      let mo := dv o1 * 10 + dv o2
      let d := dv d1 * 10 + dv d2
      let h := dv h1 * 10 + dv h2
      let mi := dv i1 * 10 + dv i2
      let sec := dv c1 * 10 + dv c2
      if 1970 ≤ y ∧ 1 ≤ mo ∧ mo ≤ 12 ∧ 1 ≤ d ∧ d ≤ 31 ∧ h ≤ 23 ∧ mi ≤ 59 ∧ sec ≤ 59 then
        .ok ((daysFromCivil1970 y mo d * 86400 + h * 3600 + mi * 60 + sec) * 1000 : Nat)
      else .error .InvalidTimestamp
    else .error .InvalidTimestamp
  | _ => .error .InvalidTimestamp

/-- The `ts`-scanning loop at the top of `to_sample`: walk the record in
order; every `ts` entry holding a string is parsed (an unparsable one aborts
the whole line via `?`), and the accumulator keeps the last parsed value;
`ts` entries holding non-strings are skipped (`as_str` returns `None`). -/
def findTsAux (acc : Option Int) : List (String × Jval) → Except ParseError (Option Int)
  | [] => .ok acc
  | (k, v) :: rest =>
    if k = "ts" then
      match v with
      | .str s =>
        match parse_timestamp s with
        | .error e => .error e
        | .ok t => findTsAux (some t) rest
      | _ => findTsAux acc rest
    else findTsAux acc rest

/-- The `ts` scan of `to_sample`, starting from `None`. -/
def findTs (record : List (String × Jval)) : Except ParseError (Option Int) :=
  findTsAux none record

/-- The catch-all arm of the field-dispatch `match` in `to_sample`: a reserved
key contributes nothing; otherwise a numeric parse yields a numeric extra, a
string with non-empty trim yields a text extra, and everything else is
dropped. -/
def extraEntryOf (k : String) (v : Jval) : Option ExtraEntry :=
  if RESERVED_KEYS.contains k then none
  else
    match parse_number v with
    | some num => some { key := k, number_value := some num, text_value := none }
    | none =>
      match v with
      | .str s => if trimString s = "" then none else
          some { key := k, number_value := none, text_value := some (trimString s) }
      | _ => none

/-- One iteration of the field-dispatch loop of `to_sample`, acting on the
(sample, extras) accumulator. -/
def applyField (cfg : TcpLineDriverConfig) (acc : RawTelemetrySample × List ExtraEntry)
    (kv : String × Jval) : RawTelemetrySample × List ExtraEntry :=
  let sample := acc.1
  let extras := acc.2
  let k := kv.1
  let v := kv.2
  if k = "btC" then
    ({ sample with bt_c := (parse_number v).map (fun x => x + cfg.offsets.bt_c) }, extras)
  else if k = "etC" then
    ({ sample with et_c := (parse_number v).map (fun x => x + cfg.offsets.et_c) }, extras)
  else if k = "powerPct" then ({ sample with power_pct := parse_number v }, extras)
  else if k = "fanPct" then ({ sample with fan_pct := parse_number v }, extras)
  else if k = "drumRpm" then ({ sample with drum_rpm := parse_number v }, extras)
  else if k = "ts" then acc
  else
    match extraEntryOf k v with
    | some e => (sample, extras ++ [e])
    | none => acc

/-- `TcpLineParser::to_sample` from the source: scan for `ts` (propagating
timestamp errors), default the instant to `now` (`Utc::now()`), dispatch every
field, attach the extras when non-empty, and discard a sample with no
populated channel and no extras. -/
def to_sample (cfg : TcpLineDriverConfig) (now : Int) (record : List (String × Jval)) :
    Except ParseError (Option RawTelemetrySample) :=
  match findTs record with
  | .error e => .error e
  | .ok tsv =>
    let ts := tsv.getD now
    let init : RawTelemetrySample :=
      { ts := ts, bt_c := none, et_c := none, power_pct := none, fan_pct := none,
        drum_rpm := none, extras := none }
    let folded := record.foldl (applyField cfg) (init, [])
    let sample := folded.1
    let extras := folded.2
    let has_channels := sample.bt_c.isSome || sample.et_c.isSome || sample.power_pct.isSome
      || sample.fan_pct.isSome || sample.drum_rpm.isSome
    let sample := if extras = [] then sample else { sample with extras := some extras }
    if !has_channels && sample.extras.isNone then .ok none else .ok (some sample)

/-- `TcpLineParser` state from the source: the configuration, the CSV
header-seen flag, and the resolved CSV column list. -/
structure TcpLineParserState where
  config : TcpLineDriverConfig
  csv_header_parsed : Bool
  csv_columns : List String
deriving Repr, DecidableEq

/-- `TcpLineParser::new` from the source. -/
def TcpLineParserState.new (config : TcpLineDriverConfig) : TcpLineParserState :=
  { config := config, csv_header_parsed := false, csv_columns := config.csv.columns }

/-- `TcpLineParser::reset` from the source. -/
def TcpLineParserState.reset (p : TcpLineParserState) : TcpLineParserState :=
  { p with csv_header_parsed := false, csv_columns := p.config.csv.columns }

/-- The default positional column order used when no column list is configured
and no header was seen. -/
def defaultColumns : List String := ["ts", "btC", "etC", "powerPct", "fanPct", "drumRpm"]

/-- The record-building loop of `parse_csv_line`: enumerate the parts and keep
`(columns[idx], part)` whenever the index is within the column list. -/
def csv_record_aux (columns : List String) (idx : Nat) : List String → List (String × Jval)
  | [] => []
  | v :: rest =>
    match columns.get? idx with
    | some k => (k, Jval.str v) :: csv_record_aux columns (idx + 1) rest
    | none => csv_record_aux columns (idx + 1) rest

/-- The record built by `parse_csv_line` from a column list and split parts. -/
def csv_record (columns parts : List String) : List (String × Jval) :=
  csv_record_aux columns 0 parts

/-- `TcpLineParser::parse_csv_line` from the source. -/
def parse_csv_line (p : TcpLineParserState) (now : Int) (line : String) :
    TcpLineParserState × Except ParseError (Option RawTelemetrySample) :=
  let parts := (splitString p.config.csv.delimiter line).map trimString
  if p.config.csv.has_header && !p.csv_header_parsed then
    ({ p with csv_columns := parts, csv_header_parsed := true }, .ok none)
  else
    let columns := if p.csv_columns ≠ [] then p.csv_columns else defaultColumns
    (p, to_sample p.config now (csv_record columns parts))

/-- `TcpLineParser::parse_json_line` from the source; `jsonDecode` models the
library composition `serde_json::from_str` + `Value::as_object` (a `none`
stands for both a syntax error and a non-object value, each mapped to
`InvalidJson`). -/
def parse_json_line (cfg : TcpLineDriverConfig)
    (jsonDecode : String → Option (List (String × Jval))) (now : Int) (line : String) :
    Except ParseError (Option RawTelemetrySample) :=
  match jsonDecode line with
  | none => .error .InvalidJson
  | some entries => to_sample cfg now entries

/-- `TcpLineParser::parse_line` from the source: trim, return no sample on an
empty line, otherwise dispatch on the configured wire format. -/
def parse_line (p : TcpLineParserState) (jsonDecode : String → Option (List (String × Jval)))
    (now : Int) (line : String) :
    TcpLineParserState × Except ParseError (Option RawTelemetrySample) :=
  let trimmed := trimString line
  if trimmed = "" then (p, .ok none)
  else
    match p.config.format with
    | .jsonl => (p, parse_json_line p.config jsonDecode now trimmed)
    | .csv => parse_csv_line p now trimmed

/-- `Backoff` state from the source. -/
structure Backoff where
  current : Nat
  min : Nat
  max : Nat
deriving Repr, DecidableEq

/-- `Backoff::new` from the source. -/
def Backoff.new (min max : Nat) : Backoff := { current := min, min := min, max := max }

/-- Rust `Ord::clamp`, which panics when `lo > hi` (modelled as `none`). -/
def clampU64 (x lo hi : Nat) : Option Nat :=
  if lo ≤ hi then some (max lo (min x hi)) else none

/-- `Backoff::next` from the source: return the current delay, then advance it
to `current.saturating_mul(2).clamp(min, max)`; a panicking clamp (only
possible when `min > max`) is modelled as `none`. -/
def Backoff.next (b : Backoff) : Option (Nat × Backoff) :=
  (clampU64 (satMul2 b.current) b.min b.max).map fun c => (b.current, { b with current := c })

/-- `Backoff::reset` from the source. -/
def Backoff.reset (b : Backoff) : Backoff := { b with current := b.min }

/-- `DriverState` from the source. -/
inductive DriverState where
  | DISCONNECTED
  | CONNECTING
  | CONNECTED
  | STOPPED
deriving Repr, DecidableEq

/-- `DriverMetrics` from the source; `lastLineAt` keeps the accepted instant
itself (the source stores its RFC 3339 rendering, a library formatting step). -/
structure DriverMetrics where
  linesReceived : Nat
  linesParsed : Nat
  parseErrors : Nat
  telemetryEmitted : Nat
  reconnects : Nat
  lastError : Option String
  lastLineAt : Option Int
deriving Repr, DecidableEq

/-- The portion of `DriverInner` state that sample ingestion and telemetry
reads touch: the metrics, the latest accepted sample, and the elapsed-time
origin `start_ts`. -/
structure DriverSt where
  metrics : DriverMetrics
  latest_sample : Option RawTelemetrySample
  start_ts : Option Int
deriving Repr, DecidableEq

/-- `DriverInner::accept_sample` from the source: when a latest sample exists,
a positive dedupe window (compared after the `u64 as i64` cast) strictly above
the millisecond delta silently discards the new sample; otherwise the sample
replaces the latest slot, becomes the elapsed-time origin when none is set,
and the parsed-line counter and last-accepted instant are updated. -/
def accept_sample (cfg : TcpLineDriverConfig) (st : DriverSt) (sample : RawTelemetrySample) :
    DriverSt :=
  let discard :=
    match st.latest_sample with
    | some latest =>
      decide (0 < cfg.dedupe_within_ms) && decide (sample.ts - latest.ts < toI64 cfg.dedupe_within_ms)
    | none => false
  if discard then st
  else
    { metrics := { st.metrics with
        linesParsed := satAdd st.metrics.linesParsed 1
        lastLineAt := some sample.ts }
      latest_sample := some sample
      start_ts := match st.start_ts with | none => some sample.ts | some t => some t }

/-- `TelemetryPoint` from the source; `ts` keeps the instant itself (the
source emits its RFC 3339 rendering, a library formatting step). -/
structure TelemetryPoint where
  ts : Int
  machineId : String
  elapsedSeconds : Rat
  btC : Option Rat
  etC : Option Rat
  gasPct : Option Rat
  fanPct : Option Rat
  drumRpm : Option Rat
  extras : Option (List ExtraEntry)
deriving Repr, DecidableEq

/-- The body of `DriverInner::read_telemetry` after `wait_for_sample` has
returned: take the latest sample (failing with "no telemetry yet" when the
slot emptied meanwhile), compute elapsed seconds from the `start_ts` origin
(`get_or_insert` with the sample's own instant, millisecond delta clamped at
zero, divided by 1000), bump the served-telemetry counter and build the
telemetry point. -/
def read_telemetry (machine_id : String) (st : DriverSt) :
    Except String (TelemetryPoint × DriverSt) :=
  match st.latest_sample with
  | none => .error "no telemetry yet"
  | some sample =>
    let base := (st.start_ts).getD sample.ts
    let delta_ms : Int := Max.max (sample.ts - base) 0
    let elapsed : Rat := (delta_ms : Rat) / 1000
    let st' : DriverSt :=
      { st with
        start_ts := some base
        metrics := { st.metrics with telemetryEmitted := satAdd st.metrics.telemetryEmitted 1 } }
    .ok ({ ts := sample.ts, machineId := machine_id, elapsedSeconds := elapsed,
           btC := sample.bt_c, etC := sample.et_c, gasPct := sample.power_pct,
           fanPct := sample.fan_pct, drumRpm := sample.drum_rpm, extras := sample.extras }, st')

/-- The read timeout computed at the top of `DriverInner::wait_for_sample`:
`(emit_interval_ms * 2).max(500)`, the doubling performed in wrapping `u64`
arithmetic (release-mode Rust semantics). -/
def wait_timeout_ms (cfg : TcpLineDriverConfig) : Nat :=
  max ((cfg.emit_interval_ms * 2) % 2 ^ 64) 500

/-- One iteration of the `DriverInner::wait_for_sample` loop: a set stop flag
fails with the stopped-driver error before anything else; an available sample
succeeds; an elapsed timeout fails with "no telemetry yet"; otherwise the
caller keeps waiting (`none`). -/
def wait_for_sample_step (stop : Bool) (latest : Option RawTelemetrySample) (timedOut : Bool) :
    Option (Except String Unit) :=
  if stop then some (.error "driver stopped")
  else if latest.isSome then some (.ok ())
  else if timedOut then some (.error "no telemetry yet")
  else none

/-- One iteration of the `DriverInner::wait_for_connected` loop: `CONNECTED`
succeeds, `STOPPED` fails with the stopped-driver error, `DISCONNECTED` with
reconnection disabled fails with the last recorded error (or "disconnected"
when none), and every other observation keeps the caller waiting (`none`). -/
def wait_for_connected_step (cfg : TcpLineDriverConfig) (state : DriverState)
    (lastError : Option String) : Option (Except String Unit) :=
  match state with
  | .CONNECTED => some (.ok ())
  | .STOPPED => some (.error "driver stopped")
  | .DISCONNECTED =>
    if cfg.reconnect.enabled then none
    else some (.error (lastError.getD "disconnected"))
  | .CONNECTING => none

/-
Shared concrete fixtures for witnesses and counterexamples.
-/

/-- A JSONL configuration with a `btC` offset of 2 and a small dedupe window. -/
def cfgStd : TcpLineDriverConfig :=
  { host := "roaster.local", port := 9001, format := .jsonl,
    csv := { has_header := false, columns := [], delimiter := "," },
    emit_interval_ms := 250, dedupe_within_ms := 100,
    offsets := { bt_c := 2, et_c := 0 },
    reconnect := { enabled := true, min_backoff_ms := 100, max_backoff_ms := 1000 } }

/-- A configuration whose dedupe window is `2^63` ms: positive as a `u64`, but
negative after the source's `as i64` cast. -/
def cfgBig : TcpLineDriverConfig :=
  { cfgStd with dedupe_within_ms := 2 ^ 63 }

/-- A channel-free sample at a given instant. -/
def sampleAt (t : Int) : RawTelemetrySample :=
  { ts := t, bt_c := none, et_c := none, power_pct := none, fan_pct := none,
    drum_rpm := none, extras := none }

/-- A sample at a given instant carrying a `btC` reading. -/
def sampleBt (t : Int) : RawTelemetrySample :=
  { sampleAt t with bt_c := some 1 }

/-- Fresh metrics, as `DriverMetrics::default()`. -/
def metrics0 : DriverMetrics :=
  { linesReceived := 0, linesParsed := 0, parseErrors := 0, telemetryEmitted := 0,
    reconnects := 0, lastError := none, lastLineAt := none }

/-- A driver state whose latest accepted sample sits at instant 0. -/
def stLatest0 : DriverSt :=
  { metrics := metrics0, latest_sample := some (sampleAt 0), start_ts := some 0 }

/-- The value of the last entry of a record carrying the given key, matching
the overwrite semantics of the field-dispatch loop of `to_sample`. -/
def lastVal (key : String) : List (String × Jval) → Option Jval
  | [] => none
  | e :: rest =>
    match lastVal key rest with
    | some v => some v
    | none => if e.1 = key then some e.2 else none

/-- A record yields no information when every channel lookup parses to
nothing and no entry contributes an extra — the situation in which
`to_sample` discards the sample. -/
abbrev noInfo (record : List (String × Jval)) : Prop :=
  (lastVal "btC" record).bind parse_number = none
  ∧ (lastVal "etC" record).bind parse_number = none
  ∧ (lastVal "powerPct" record).bind parse_number = none
  ∧ (lastVal "fanPct" record).bind parse_number = none
  ∧ (lastVal "drumRpm" record).bind parse_number = none
  ∧ record.filterMap (fun kv => extraEntryOf kv.1 kv.2) = []

/-- A JSON decoder stub that accepts nothing; used to instantiate the decoder
argument of `parse_line` where the JSONL branch is not exercised. -/
def jsonDecodeNone : String → Option (List (String × Jval)) := fun _ => none

/-- A CSV configuration with a header line expected and a comma delimiter. -/
def cfgCsv : TcpLineDriverConfig :=
  { cfgStd with format := FrameFormat.csv
                csv := { has_header := true, columns := [], delimiter := "," } }

/-- A fresh parser for the CSV configuration. -/
def pCsv : TcpLineParserState := TcpLineParserState.new cfgCsv

/-- A JSONL record carrying a numeric-string `btC`, a numeric `etC` and one
extra field. -/
def recC1 : List (String × Jval) :=
  [("btC", Jval.str "10"), ("etC", Jval.num 20), ("roastId", Jval.str " r42 ")]

/-- The sample `to_sample` produces from `recC1` at instant 0 under `cfgStd`
(`btC` offset 2 applied, extra trimmed). -/
def sC1 : RawTelemetrySample :=
  { ts := 0, bt_c := some 12, et_c := some 20, power_pct := none, fan_pct := none,
    drum_rpm := none,
    extras := some [{ key := "roastId", number_value := none, text_value := some "r42" }] }

/-- A record whose `ts` field carries a number instead of a string. -/
def recNumTs : List (String × Jval) := [("ts", Jval.num 5), ("powerPct", Jval.num 40)]

/-- A record whose entries all parse to nothing: an empty-string channel and a
whitespace extra. -/
def recNoInfo : List (String × Jval) := [("btC", Jval.str ""), ("note", Jval.str "   ")]

/-- The parser state after `pCsv` has consumed the header "ts,btC,x". -/
def pCsvHdr : TcpLineParserState :=
  { pCsv with csv_columns := ["ts", "btC", "x"], csv_header_parsed := true }

/-- The sample produced from the record of the line `{"powerPct": 40}` at
processing instant 99. -/
def sPw : RawTelemetrySample :=
  { ts := 99, bt_c := none, et_c := none, power_pct := some 40, fan_pct := none,
    drum_rpm := none, extras := none }

/-
Helper lemmas.
-/

/-- Below `2^63` the `u64 as i64` cast is the identity. -/
theorem toI64_of_lt (n : Nat) (h : n < 2 ^ 63) : toI64 n = n := by
  have h63 : (2 : Nat) ^ 63 = 9223372036854775808 := by norm_num
  have h64 : (2 : Nat) ^ 64 = 18446744073709551616 := by norm_num
  unfold toI64
  rw [Nat.mod_eq_of_lt (by omega)]
  push_cast
  omega

/-- Claim C4: for a backoff whose bounds satisfy `min ≤ max` (with `max` a
`u64` value), `next()` returns the current delay and advances it to
`min(current*2, max)` floored at `min`, and `reset()` restores `min`; in
particular for `min = 100`, `max = 1000` the successive returned delays are
100, 200, 400, 800, 1000, 1000, … and after a reset the sequence restarts at
100. -/
theorem backoff_spec (b : Backoff) (hb : b.min ≤ b.max) (hmax : b.max ≤ U64MAX) :
    b.next = some (b.current, { b with current := max b.min (min (b.current * 2) b.max) })
    ∧ b.reset = { b with current := b.min }
    ∧ Backoff.new 100 1000 = ⟨100, 100, 1000⟩
    ∧ Backoff.next ⟨100, 100, 1000⟩ = some (100, ⟨200, 100, 1000⟩)
    ∧ Backoff.next ⟨200, 100, 1000⟩ = some (200, ⟨400, 100, 1000⟩)
    ∧ Backoff.next ⟨400, 100, 1000⟩ = some (400, ⟨800, 100, 1000⟩)
    ∧ Backoff.next ⟨800, 100, 1000⟩ = some (800, ⟨1000, 100, 1000⟩)
    ∧ Backoff.next ⟨1000, 100, 1000⟩ = some (1000, ⟨1000, 100, 1000⟩)
    ∧ Backoff.reset ⟨1000, 100, 1000⟩ = ⟨100, 100, 1000⟩
    ∧ Backoff.next (Backoff.reset ⟨1000, 100, 1000⟩) = some (100, ⟨200, 100, 1000⟩) := by
  have hU : U64MAX = 18446744073709551615 := by norm_num [U64MAX]
  have hmax' : b.max ≤ 18446744073709551615 := hU ▸ hmax
  refine ⟨?_, rfl, by decide, by decide, by decide, by decide, by decide, by decide,
    by decide, by decide⟩
  simp only [Backoff.next, clampU64, satMul2, hU, if_pos hb, Option.map_some']
  have hx : min (min (b.current * 2) 18446744073709551615) b.max
      = min (b.current * 2) b.max := by omega
  rw [hx]

/-- Claim C4 witness: the general part of `backoff_spec` evaluated at the
backoff state `⟨250, 100, 1000⟩`. -/
theorem backoff_spec_witness :
    (100 : Nat) ≤ 1000 ∧ (1000 : Nat) ≤ U64MAX
    ∧ Backoff.next ⟨250, 100, 1000⟩ = some (250, ⟨500, 100, 1000⟩)
    ∧ Backoff.reset ⟨250, 100, 1000⟩ = ⟨100, 100, 1000⟩ := by
  refine ⟨by decide, by decide, ?_, ?_⟩
  · exact (backoff_spec ⟨250, 100, 1000⟩ (by decide) (by decide)).1.trans (by decide)
  · exact (backoff_spec ⟨250, 100, 1000⟩ (by decide) (by decide)).2.1

/-- Claim C3 counterexample: with the positive dedupe window `2^63` and a
latest accepted sample at instant 0, a new sample at instant 1 has delta
1 < window, yet `accept_sample` accepts it (the window wraps negative under
the source's `as i64` cast): the state changes and `linesParsed` increments,
where the claim requires a silent discard. -/
theorem accept_sample_window_wrap_cex :
    0 < cfgBig.dedupe_within_ms
    ∧ ((sampleAt 1).ts - (sampleAt 0).ts) < (cfgBig.dedupe_within_ms : Int)
    ∧ stLatest0.latest_sample = some (sampleAt 0)
    ∧ accept_sample cfgBig stLatest0 (sampleAt 1) ≠ stLatest0
    ∧ (accept_sample cfgBig stLatest0 (sampleAt 1)).metrics.linesParsed
        = stLatest0.metrics.linesParsed + 1 := by
  refine ⟨by decide, by norm_num [cfgBig, cfgStd, sampleAt], by decide, by decide, by decide⟩

/-- Claim C3 (amended: the positive dedupe window must lie below `2^63`, the
range where the source's `u64 as i64` cast preserves it): with a latest
accepted sample present, a new sample whose millisecond delta is strictly
below the window is silently discarded, leaving the state — latest-sample
slot, `linesParsed`, last-accepted timestamp — unchanged; a delta at or above
the window replaces the latest-sample slot, increments `linesParsed` and
records the new last-accepted timestamp. -/
theorem accept_sample_dedupe_spec (cfg : TcpLineDriverConfig) (st : DriverSt)
    (latest sample : RawTelemetrySample)
    (hl : st.latest_sample = some latest)
    (hpos : 0 < cfg.dedupe_within_ms) (hlt : cfg.dedupe_within_ms < 2 ^ 63)
    (hsat : st.metrics.linesParsed < U64MAX) :
    (sample.ts - latest.ts < (cfg.dedupe_within_ms : Int) →
       accept_sample cfg st sample = st)
    ∧ ((cfg.dedupe_within_ms : Int) ≤ sample.ts - latest.ts →
       (accept_sample cfg st sample).latest_sample = some sample
       ∧ (accept_sample cfg st sample).metrics.linesParsed = st.metrics.linesParsed + 1
       ∧ (accept_sample cfg st sample).metrics.lastLineAt = some sample.ts) := by
  constructor
  · intro hdelta
    simp [accept_sample, hl, toI64_of_lt _ hlt, hpos, hdelta]
  · intro hdelta
    have hnot : ¬ sample.ts - latest.ts < (cfg.dedupe_within_ms : Int) := by omega
    have hadd : satAdd st.metrics.linesParsed 1 = st.metrics.linesParsed + 1 := by
      have : st.metrics.linesParsed < 18446744073709551615 := by simpa [U64MAX] using hsat
      simp [satAdd, U64MAX]
      omega
    simp [accept_sample, hl, toI64_of_lt _ hlt, hpos, hnot, hadd]

/-- Claim C3 witness: `accept_sample_dedupe_spec` at the standard
configuration (window 100 ms), latest sample at 0: a sample at 50 is
discarded, a sample at 100 is accepted and counted. -/
theorem accept_sample_dedupe_spec_witness :
    stLatest0.latest_sample = some (sampleAt 0)
    ∧ 0 < cfgStd.dedupe_within_ms ∧ cfgStd.dedupe_within_ms < 2 ^ 63
    ∧ stLatest0.metrics.linesParsed < U64MAX
    ∧ accept_sample cfgStd stLatest0 (sampleAt 50) = stLatest0
    ∧ (accept_sample cfgStd stLatest0 (sampleAt 100)).latest_sample = some (sampleAt 100)
    ∧ (accept_sample cfgStd stLatest0 (sampleAt 100)).metrics.linesParsed
        = stLatest0.metrics.linesParsed + 1 := by
  refine ⟨rfl, by decide, by decide, by decide, ?_, ?_, ?_⟩
  · exact (accept_sample_dedupe_spec cfgStd stLatest0 (sampleAt 0) (sampleAt 50) rfl
      (by decide) (by decide) (by decide)).1 (by norm_num [cfgStd, sampleAt])
  · exact ((accept_sample_dedupe_spec cfgStd stLatest0 (sampleAt 0) (sampleAt 100) rfl
      (by decide) (by decide) (by decide)).2 (by norm_num [cfgStd, sampleAt])).1
  · exact ((accept_sample_dedupe_spec cfgStd stLatest0 (sampleAt 0) (sampleAt 100) rfl
      (by decide) (by decide) (by decide)).2 (by norm_num [cfgStd, sampleAt])).2.1

/-- Claim C10 counterexample: with the positive dedupe window `2^63` and a
latest accepted sample at instant 0, a new sample at the same instant (delta
≤ 0) is nevertheless accepted and replaces the latest-sample slot, because the
window wraps negative under the source's `as i64` cast — the claim requires it
to be discarded. -/
theorem accept_sample_monotone_cex :
    0 < cfgBig.dedupe_within_ms
    ∧ (sampleBt 0).ts ≤ (sampleAt 0).ts
    ∧ stLatest0.latest_sample = some (sampleAt 0)
    ∧ (accept_sample cfgBig stLatest0 (sampleBt 0)).latest_sample = some (sampleBt 0) := by
  refine ⟨by decide, by decide, by decide, by decide⟩

/-- Claim C10 (amended: for a positive dedupe window below `2^63`, the range
where the source's `u64 as i64` cast preserves it): with a latest accepted
sample present, any new sample whose timestamp is at or before the latest one
is discarded with the state unchanged, and whenever `accept_sample` changes
the state at all, the new sample's timestamp exceeds the latest accepted one
by at least the window. -/
theorem accept_sample_monotone_spec (cfg : TcpLineDriverConfig) (st : DriverSt)
    (latest sample : RawTelemetrySample)
    (hl : st.latest_sample = some latest)
    (hpos : 0 < cfg.dedupe_within_ms) (hlt : cfg.dedupe_within_ms < 2 ^ 63) :
    (sample.ts ≤ latest.ts → accept_sample cfg st sample = st)
    ∧ (accept_sample cfg st sample ≠ st →
       latest.ts + (cfg.dedupe_within_ms : Int) ≤ sample.ts) := by
  constructor
  · intro hle
    have hdelta : sample.ts - latest.ts < (cfg.dedupe_within_ms : Int) := by
      have : (0 : Int) < (cfg.dedupe_within_ms : Int) := by exact_mod_cast hpos
      omega
    simp [accept_sample, hl, toI64_of_lt _ hlt, hpos, hdelta]
  · intro hchange
    by_contra hcon
    have hdelta : sample.ts - latest.ts < (cfg.dedupe_within_ms : Int) := by omega
    exact hchange (by simp [accept_sample, hl, toI64_of_lt _ hlt, hpos, hdelta])

/-- Claim C10 witness: `accept_sample_monotone_spec` at the standard
configuration: a sample at instant -5 (at or before the latest, 0) is
discarded. -/
theorem accept_sample_monotone_spec_witness :
    stLatest0.latest_sample = some (sampleAt 0)
    ∧ 0 < cfgStd.dedupe_within_ms ∧ cfgStd.dedupe_within_ms < 2 ^ 63
    ∧ (sampleAt (-5)).ts ≤ (sampleAt 0).ts
    ∧ accept_sample cfgStd stLatest0 (sampleAt (-5)) = stLatest0 := by
  refine ⟨rfl, by decide, by decide, by decide, ?_⟩
  exact (accept_sample_monotone_spec cfgStd stLatest0 (sampleAt 0) (sampleAt (-5)) rfl
    (by decide) (by decide)).1 (by decide)

/-- Claim C6: `read_telemetry` computes `elapsedSeconds` as the millisecond
delta between the returned sample's timestamp and the recorded origin, clamped
at zero and divided by 1000; the first sample accepted after a (re)connection
(both per-connection slots cleared) becomes the origin, so reading it yields
exactly 0; a sample Δms after the origin yields Δ/1000. -/
theorem read_telemetry_elapsed_spec (mid : String) (st : DriverSt)
    (sample : RawTelemetrySample) (hl : st.latest_sample = some sample) :
    (∃ pt st', read_telemetry mid st = .ok (pt, st')
      ∧ pt.elapsedSeconds
          = ((Max.max (sample.ts - (st.start_ts).getD sample.ts) 0 : Int) : Rat) / 1000
      ∧ (st.start_ts = some sample.ts → pt.elapsedSeconds = 0)
      ∧ (st.start_ts = none → pt.elapsedSeconds = 0)
      ∧ (∀ t d : Int, st.start_ts = some t → 0 ≤ d → sample.ts = t + d →
          pt.elapsedSeconds = (d : Rat) / 1000))
    ∧ (∀ (cfg : TcpLineDriverConfig) (st0 : DriverSt) (s0 : RawTelemetrySample),
        st0.latest_sample = none → st0.start_ts = none →
        (accept_sample cfg st0 s0).start_ts = some s0.ts
        ∧ (accept_sample cfg st0 s0).latest_sample = some s0) := by
  constructor
  · refine ⟨_, _, by rw [read_telemetry, hl], ?_, ?_, ?_, ?_⟩
    · simp
    · intro h0
      simp [h0]
    · intro h0
      simp [h0]
    · intro t d h0 hd hts
      simp only [h0, hts, Option.getD_some, add_sub_cancel_left]
      rw [max_eq_left hd]
  · intro cfg st0 s0 h1 h2
    constructor
    · simp [accept_sample, h1, h2]
    · simp [accept_sample, h1]

/-- Claim C6 witness: `read_telemetry_elapsed_spec` at a state whose origin is
instant 0 and whose latest sample sits at instant 1500: elapsed is 1.5 s. -/
theorem read_telemetry_elapsed_spec_witness :
    ({ metrics := metrics0, latest_sample := some (sampleAt 1500),
       start_ts := some 0 } : DriverSt).latest_sample = some (sampleAt 1500)
    ∧ (∃ pt st', read_telemetry "m1"
          { metrics := metrics0, latest_sample := some (sampleAt 1500), start_ts := some 0 }
          = .ok (pt, st')
        ∧ pt.elapsedSeconds = (3 : Rat) / 2) := by
  constructor
  · rfl
  · obtain ⟨pt, st', heq, helapsed, -, -, hdelta⟩ :=
      (read_telemetry_elapsed_spec "m1"
        { metrics := metrics0, latest_sample := some (sampleAt 1500), start_ts := some 0 }
        (sampleAt 1500) rfl).1
    refine ⟨pt, st', heq, ?_⟩
    rw [hdelta 0 1500 rfl (by norm_num) (by norm_num [sampleAt])]
    norm_num

/-- Claim C7: the `read_telemetry` wait is bounded by
`max(2 * emitIntervalMs, 500)` milliseconds (the doubling wraps in `u64`, so
the actual bound never exceeds the claimed one); a set stop flag fails
immediately with the stopped-driver error even if a sample is available; an
available sample succeeds; an elapsed timeout with no sample fails with the
"no telemetry yet" error. -/
theorem wait_for_sample_spec (cfg : TcpLineDriverConfig)
    (latest : Option RawTelemetrySample) (timedOut : Bool) :
    wait_timeout_ms cfg ≤ Max.max (cfg.emit_interval_ms * 2) 500
    ∧ (cfg.emit_interval_ms < 2 ^ 63 →
        wait_timeout_ms cfg = Max.max (cfg.emit_interval_ms * 2) 500)
    ∧ wait_for_sample_step true latest timedOut = some (.error "driver stopped")
    ∧ (latest.isSome = true →
        wait_for_sample_step false latest timedOut = some (.ok ()))
    ∧ wait_for_sample_step false none true = some (.error "no telemetry yet") := by
  have h64 : (2 : Nat) ^ 64 = 18446744073709551616 := by norm_num
  refine ⟨?_, ?_, by simp [wait_for_sample_step], ?_, by simp [wait_for_sample_step]⟩
  · simp only [wait_timeout_ms, h64]
    have := Nat.mod_le (cfg.emit_interval_ms * 2) 18446744073709551616
    omega
  · intro hlt
    have h63 : (2 : Nat) ^ 63 = 9223372036854775808 := by norm_num
    rw [h63] at hlt
    simp only [wait_timeout_ms, h64]
    rw [Nat.mod_eq_of_lt (by omega)]
  · intro hs
    simp [wait_for_sample_step, hs]

/-- Claim C7 witness: `wait_for_sample_spec` at the standard configuration
(emit interval 250 ms, so the bound is 500 ms) with a sample available. -/
theorem wait_for_sample_spec_witness :
    (some (sampleAt 0) : Option RawTelemetrySample).isSome = true
    ∧ wait_timeout_ms cfgStd = 500
    ∧ wait_for_sample_step false (some (sampleAt 0)) false = some (.ok ()) := by
  refine ⟨rfl, by decide, ?_⟩
  exact (wait_for_sample_spec cfgStd (some (sampleAt 0)) false).2.2.2.1 rfl

/-- Claim C8: the `connect` wait observes the driver state: `CONNECTED`
succeeds; `STOPPED` fails with the stopped-driver error; `DISCONNECTED` with
reconnection disabled fails with the last recorded error message, or
"disconnected" when none was recorded; otherwise (still `CONNECTING`, or
`DISCONNECTED` while reconnection is enabled) the caller keeps waiting. -/
theorem wait_for_connected_spec (cfg : TcpLineDriverConfig) (lastErr : Option String) :
    wait_for_connected_step cfg .CONNECTED lastErr = some (.ok ())
    ∧ wait_for_connected_step cfg .STOPPED lastErr = some (.error "driver stopped")
    ∧ (cfg.reconnect.enabled = false →
        wait_for_connected_step cfg .DISCONNECTED lastErr
          = some (.error (lastErr.getD "disconnected")))
    ∧ (cfg.reconnect.enabled = false → lastErr = none →
        wait_for_connected_step cfg .DISCONNECTED lastErr = some (.error "disconnected"))
    ∧ (cfg.reconnect.enabled = true →
        wait_for_connected_step cfg .DISCONNECTED lastErr = none)
    ∧ wait_for_connected_step cfg .CONNECTING lastErr = none := by
  refine ⟨rfl, rfl, ?_, ?_, ?_, rfl⟩
  · intro hd
    simp [wait_for_connected_step, hd]
  · intro hd hn
    simp [wait_for_connected_step, hd, hn]
  · intro hd
    simp [wait_for_connected_step, hd]

/-- Claim C8 witness: `wait_for_connected_spec` with reconnection disabled and
a recorded last error, surfaced verbatim on `DISCONNECTED`. -/
theorem wait_for_connected_spec_witness :
    ({ cfgStd with reconnect := { cfgStd.reconnect with
        enabled := false } } : TcpLineDriverConfig).reconnect.enabled = false
    ∧ wait_for_connected_step
        { cfgStd with reconnect := { cfgStd.reconnect with enabled := false } }
        .DISCONNECTED (some "connection failure: refused")
        = some (.error "connection failure: refused") := by
  refine ⟨rfl, ?_⟩
  exact ((wait_for_connected_spec
    { cfgStd with reconnect := { cfgStd.reconnect with enabled := false } }
    (some "connection failure: refused")).2.2.1 rfl).trans (by rfl)

/-- The sample component of one `applyField` step, as a simultaneous update of
all five channels. -/
theorem applyField_fst (cfg : TcpLineDriverConfig) (acc : RawTelemetrySample × List ExtraEntry)
    (k : String) (v : Jval) :
    (applyField cfg acc (k, v)).1 =
      { acc.1 with
        bt_c := if k = "btC" then (parse_number v).map (fun x => x + cfg.offsets.bt_c)
          else acc.1.bt_c
        et_c := if k = "etC" then (parse_number v).map (fun x => x + cfg.offsets.et_c)
          else acc.1.et_c
        power_pct := if k = "powerPct" then parse_number v else acc.1.power_pct
        fan_pct := if k = "fanPct" then parse_number v else acc.1.fan_pct
        drum_rpm := if k = "drumRpm" then parse_number v else acc.1.drum_rpm } := by
  by_cases h1 : k = "btC"
  · subst h1; simp [applyField]
  by_cases h2 : k = "etC"
  · subst h2; simp [applyField]
  by_cases h3 : k = "powerPct"
  · subst h3; simp [applyField]
  by_cases h4 : k = "fanPct"
  · subst h4; simp [applyField]
  by_cases h5 : k = "drumRpm"
  · subst h5; simp [applyField]
  by_cases h6 : k = "ts"
  · subst h6; simp [applyField]
  simp only [applyField, h1, h2, h3, h4, h5, h6, if_false]
  cases hE : extraEntryOf k v <;> simp [hE]

/-- The extras component of one `applyField` step: the accumulated list plus
whatever `extraEntryOf` contributes (nothing, for reserved keys). -/
theorem applyField_snd (cfg : TcpLineDriverConfig) (acc : RawTelemetrySample × List ExtraEntry)
    (k : String) (v : Jval) :
    (applyField cfg acc (k, v)).2 = acc.2 ++ (extraEntryOf k v).toList := by
  by_cases h1 : k = "btC"
  · subst h1; simp [applyField, extraEntryOf, RESERVED_KEYS]
  by_cases h2 : k = "etC"
  · subst h2; simp [applyField, extraEntryOf, RESERVED_KEYS]
  by_cases h3 : k = "powerPct"
  · subst h3; simp [applyField, extraEntryOf, RESERVED_KEYS]
  by_cases h4 : k = "fanPct"
  · subst h4; simp [applyField, extraEntryOf, RESERVED_KEYS]
  by_cases h5 : k = "drumRpm"
  · subst h5; simp [applyField, extraEntryOf, RESERVED_KEYS]
  by_cases h6 : k = "ts"
  · subst h6; simp [applyField, extraEntryOf, RESERVED_KEYS]
  simp only [applyField, h1, h2, h3, h4, h5, h6, if_false]
  cases hE : extraEntryOf k v <;> simp [hE]

/-- The field-dispatch fold never changes the sample's timestamp. -/
theorem foldl_fst_ts (cfg : TcpLineDriverConfig) (record : List (String × Jval)) :
    ∀ acc : RawTelemetrySample × List ExtraEntry,
      ((record.foldl (applyField cfg) acc).1).ts = acc.1.ts := by
  induction record with
  | nil => intro acc; rfl
  | cons e rest ih =>
    intro acc
    obtain ⟨k, v⟩ := e
    rw [List.foldl_cons, ih, applyField_fst]

/-- The `btC` channel produced by the field-dispatch fold comes from the last
`btC` entry of the record, offset applied. -/
theorem foldl_fst_bt_c (cfg : TcpLineDriverConfig) (record : List (String × Jval)) :
    ∀ acc : RawTelemetrySample × List ExtraEntry,
      ((record.foldl (applyField cfg) acc).1).bt_c =
        match lastVal "btC" record with
        | none => acc.1.bt_c
        | some v => (parse_number v).map (fun x => x + cfg.offsets.bt_c) := by
  induction record with
  | nil => intro acc; rfl
  | cons e rest ih =>
    intro acc
    obtain ⟨k, v⟩ := e
    rw [List.foldl_cons, ih]
    cases hrest : lastVal "btC" rest with
    | some w => simp [lastVal, hrest]
    | none =>
      simp only [lastVal, hrest, applyField_fst]
      by_cases hk : k = "btC" <;> simp [hk]

/-- The `etC` channel produced by the field-dispatch fold comes from the last
`etC` entry of the record, offset applied. -/
theorem foldl_fst_et_c (cfg : TcpLineDriverConfig) (record : List (String × Jval)) :
    ∀ acc : RawTelemetrySample × List ExtraEntry,
      ((record.foldl (applyField cfg) acc).1).et_c =
        match lastVal "etC" record with
        | none => acc.1.et_c
        | some v => (parse_number v).map (fun x => x + cfg.offsets.et_c) := by
  induction record with
  | nil => intro acc; rfl
  | cons e rest ih =>
    intro acc
    obtain ⟨k, v⟩ := e
    rw [List.foldl_cons, ih]
    cases hrest : lastVal "etC" rest with
    | some w => simp [lastVal, hrest]
    | none =>
      simp only [lastVal, hrest, applyField_fst]
      by_cases hk : k = "etC" <;> simp [hk]

/-- The `powerPct` channel produced by the field-dispatch fold comes from the
last `powerPct` entry of the record (no offset). -/
theorem foldl_fst_power_pct (cfg : TcpLineDriverConfig) (record : List (String × Jval)) :
    ∀ acc : RawTelemetrySample × List ExtraEntry,
      ((record.foldl (applyField cfg) acc).1).power_pct =
        match lastVal "powerPct" record with
        | none => acc.1.power_pct
        | some v => parse_number v := by
  induction record with
  | nil => intro acc; rfl
  | cons e rest ih =>
    intro acc
    obtain ⟨k, v⟩ := e
    rw [List.foldl_cons, ih]
    cases hrest : lastVal "powerPct" rest with
    | some w => simp [lastVal, hrest]
    | none =>
      simp only [lastVal, hrest, applyField_fst]
      by_cases hk : k = "powerPct" <;> simp [hk]

/-- The `fanPct` channel produced by the field-dispatch fold comes from the
last `fanPct` entry of the record (no offset). -/
theorem foldl_fst_fan_pct (cfg : TcpLineDriverConfig) (record : List (String × Jval)) :
    ∀ acc : RawTelemetrySample × List ExtraEntry,
      ((record.foldl (applyField cfg) acc).1).fan_pct =
        match lastVal "fanPct" record with
        | none => acc.1.fan_pct
        | some v => parse_number v := by
  induction record with
  | nil => intro acc; rfl
  | cons e rest ih =>
    intro acc
    obtain ⟨k, v⟩ := e
    rw [List.foldl_cons, ih]
    cases hrest : lastVal "fanPct" rest with
    | some w => simp [lastVal, hrest]
    | none =>
      simp only [lastVal, hrest, applyField_fst]
      by_cases hk : k = "fanPct" <;> simp [hk]

/-- The `drumRpm` channel produced by the field-dispatch fold comes from the
last `drumRpm` entry of the record (no offset). -/
theorem foldl_fst_drum_rpm (cfg : TcpLineDriverConfig) (record : List (String × Jval)) :
    ∀ acc : RawTelemetrySample × List ExtraEntry,
      ((record.foldl (applyField cfg) acc).1).drum_rpm =
        match lastVal "drumRpm" record with
        | none => acc.1.drum_rpm
        | some v => parse_number v := by
  induction record with
  | nil => intro acc; rfl
  | cons e rest ih =>
    intro acc
    obtain ⟨k, v⟩ := e
    rw [List.foldl_cons, ih]
    cases hrest : lastVal "drumRpm" rest with
    | some w => simp [lastVal, hrest]
    | none =>
      simp only [lastVal, hrest, applyField_fst]
      by_cases hk : k = "drumRpm" <;> simp [hk]

/-- The extras accumulated by the field-dispatch fold are the per-entry
contributions of `extraEntryOf`, in record order. -/
theorem foldl_snd_extras (cfg : TcpLineDriverConfig) (record : List (String × Jval)) :
    ∀ acc : RawTelemetrySample × List ExtraEntry,
      (record.foldl (applyField cfg) acc).2 =
        acc.2 ++ record.filterMap (fun kv => extraEntryOf kv.1 kv.2) := by
  induction record with
  | nil => intro acc; simp
  | cons e rest ih =>
    intro acc
    obtain ⟨k, v⟩ := e
    rw [List.foldl_cons, ih]
    rw [applyField_snd]
    cases hE : extraEntryOf k v <;> simp [hE, List.filterMap_cons]

/-- The field-dispatch fold never touches the sample's `extras` field (the
extras accumulate in the second component instead). -/
theorem foldl_fst_extrasField (cfg : TcpLineDriverConfig) (record : List (String × Jval)) :
    ∀ acc : RawTelemetrySample × List ExtraEntry,
      ((record.foldl (applyField cfg) acc).1).extras = acc.1.extras := by
  induction record with
  | nil => intro acc; rfl
  | cons e rest ih =>
    intro acc
    obtain ⟨k, v⟩ := e
    rw [List.foldl_cons, ih, applyField_fst]

/-- Folding an option through a parse and an offset map, in bind form. -/
theorem match_bind_map (o : Option Jval) (g : Rat → Rat) :
    (match o with | none => (none : Option Rat) | some v => (parse_number v).map g)
      = (o.bind parse_number).map g := by
  cases o <;> rfl

/-- Folding an option through a parse, in bind form. -/
theorem match_bind (o : Option Jval) :
    (match o with | none => (none : Option Rat) | some v => parse_number v)
      = o.bind parse_number := by
  cases o <;> rfl

/-- Elimination principle for `to_sample` returning a sample: the timestamp
comes from the `ts` scan (defaulting to `now`), each channel from the last
record entry of its key (offsets applied to `btC`/`etC`), the extras from the
per-entry contributions, and the sample carries at least one channel or some
extras. -/
theorem to_sample_some_elim (cfg : TcpLineDriverConfig) (now : Int)
    (record : List (String × Jval)) (s : RawTelemetrySample)
    (h : to_sample cfg now record = .ok (some s)) :
    (∃ tsv, findTs record = .ok tsv ∧ s.ts = tsv.getD now)
    ∧ s.bt_c = ((lastVal "btC" record).bind parse_number).map (fun x => x + cfg.offsets.bt_c)
    ∧ s.et_c = ((lastVal "etC" record).bind parse_number).map (fun x => x + cfg.offsets.et_c)
    ∧ s.power_pct = (lastVal "powerPct" record).bind parse_number
    ∧ s.fan_pct = (lastVal "fanPct" record).bind parse_number
    ∧ s.drum_rpm = (lastVal "drumRpm" record).bind parse_number
    ∧ s.extras = (if record.filterMap (fun kv => extraEntryOf kv.1 kv.2) = [] then none
        else some (record.filterMap (fun kv => extraEntryOf kv.1 kv.2)))
    ∧ (s.bt_c.isSome = true ∨ s.et_c.isSome = true ∨ s.power_pct.isSome = true
        ∨ s.fan_pct.isSome = true ∨ s.drum_rpm.isSome = true ∨ s.extras.isSome = true) := by
  cases hts : findTs record with
  | error e => simp [to_sample, hts] at h
  | ok tsv =>
    simp only [to_sample, hts] at h
    set init : RawTelemetrySample :=
      { ts := tsv.getD now, bt_c := none, et_c := none, power_pct := none,
        fan_pct := none, drum_rpm := none, extras := none } with hinit
    set folded := record.foldl (applyField cfg) (init, ([] : List ExtraEntry)) with hfolded
    have hextF : folded.1.extras = none := by
      rw [hfolded, foldl_fst_extrasField]
    have hfm : folded.2 = record.filterMap (fun kv => extraEntryOf kv.1 kv.2) := by
      rw [hfolded, foldl_snd_extras]
      simp
    have hbt : folded.1.bt_c
        = ((lastVal "btC" record).bind parse_number).map (fun x => x + cfg.offsets.bt_c) := by
      rw [hfolded, foldl_fst_bt_c, ← match_bind_map]
    have het : folded.1.et_c
        = ((lastVal "etC" record).bind parse_number).map (fun x => x + cfg.offsets.et_c) := by
      rw [hfolded, foldl_fst_et_c, ← match_bind_map]
    have hpw : folded.1.power_pct = (lastVal "powerPct" record).bind parse_number := by
      rw [hfolded, foldl_fst_power_pct, ← match_bind]
    have hfn : folded.1.fan_pct = (lastVal "fanPct" record).bind parse_number := by
      rw [hfolded, foldl_fst_fan_pct, ← match_bind]
    have hdr : folded.1.drum_rpm = (lastVal "drumRpm" record).bind parse_number := by
      rw [hfolded, foldl_fst_drum_rpm, ← match_bind]
    have hts' : folded.1.ts = tsv.getD now := by
      rw [hfolded, foldl_fst_ts]
    by_cases he : folded.2 = []
    · by_cases hch : (folded.1.bt_c.isSome || folded.1.et_c.isSome || folded.1.power_pct.isSome
          || folded.1.fan_pct.isSome || folded.1.drum_rpm.isSome) = true
      · rw [if_pos he] at h
        rw [hch] at h
        simp only [hextF, Option.isNone_none, Bool.not_true, Bool.false_and,
          Bool.false_eq_true, if_false, Except.ok.injEq, Option.some.injEq] at h
        subst h
        refine ⟨⟨tsv, rfl, hts'⟩, hbt, het, hpw, hfn, hdr, ?_, ?_⟩
        · rw [hextF, ← hfm, if_pos he]
        · rw [hbt, het, hpw, hfn, hdr] at hch
          simp only [Bool.or_eq_true] at hch
          rw [hbt, het, hpw, hfn, hdr]
          tauto
      · exfalso
        rw [if_pos he] at h
        rw [Bool.not_eq_true] at hch
        simp only [Bool.or_eq_false_iff] at hch
        obtain ⟨⟨⟨⟨h1, h2⟩, h3⟩, h4⟩, h5⟩ := hch
        rw [h1, h2, h3, h4, h5] at h
        simp [hextF] at h
    · rw [if_neg he] at h
      have : ({ folded.1 with extras := some folded.2 } : RawTelemetrySample).extras.isNone
          = false := rfl
      rw [this] at h
      simp only [Bool.and_false, Bool.false_eq_true, if_false, Except.ok.injEq,
        Option.some.injEq] at h
      subst h
      refine ⟨⟨tsv, rfl, hts'⟩, hbt, het, hpw, hfn, hdr, ?_, ?_⟩
      · rw [show ({ folded.1 with extras := some folded.2 } : RawTelemetrySample).extras
            = some folded.2 from rfl, hfm, if_neg (hfm ▸ he)]
      · right; right; right; right; right
        rfl

/-- Elimination principle for `to_sample` returning no sample: every channel
lookup parses to nothing and the record contributes no extras. -/
theorem to_sample_none_elim (cfg : TcpLineDriverConfig) (now : Int)
    (record : List (String × Jval)) (h : to_sample cfg now record = .ok none) :
    (lastVal "btC" record).bind parse_number = none
    ∧ (lastVal "etC" record).bind parse_number = none
    ∧ (lastVal "powerPct" record).bind parse_number = none
    ∧ (lastVal "fanPct" record).bind parse_number = none
    ∧ (lastVal "drumRpm" record).bind parse_number = none
    ∧ record.filterMap (fun kv => extraEntryOf kv.1 kv.2) = [] := by
  cases hts : findTs record with
  | error e => simp [to_sample, hts] at h
  | ok tsv =>
    simp only [to_sample, hts] at h
    set init : RawTelemetrySample :=
      { ts := tsv.getD now, bt_c := none, et_c := none, power_pct := none,
        fan_pct := none, drum_rpm := none, extras := none } with hinit
    set folded := record.foldl (applyField cfg) (init, ([] : List ExtraEntry)) with hfolded
    have hextF : folded.1.extras = none := by
      rw [hfolded, foldl_fst_extrasField]
    have hfm : folded.2 = record.filterMap (fun kv => extraEntryOf kv.1 kv.2) := by
      rw [hfolded, foldl_snd_extras]
      simp
    by_cases he : folded.2 = []
    · by_cases hch : (folded.1.bt_c.isSome || folded.1.et_c.isSome || folded.1.power_pct.isSome
          || folded.1.fan_pct.isSome || folded.1.drum_rpm.isSome) = true
      · exfalso
        rw [if_pos he, hch] at h
        simp [hextF] at h
      · rw [Bool.not_eq_true] at hch
        simp only [Bool.or_eq_false_iff] at hch
        obtain ⟨⟨⟨⟨h1, h2⟩, h3⟩, h4⟩, h5⟩ := hch
        replace h1 : folded.1.bt_c = none := Option.not_isSome_iff_eq_none.mp (by simp [h1])
        replace h2 : folded.1.et_c = none := Option.not_isSome_iff_eq_none.mp (by simp [h2])
        replace h3 : folded.1.power_pct = none := Option.not_isSome_iff_eq_none.mp (by simp [h3])
        replace h4 : folded.1.fan_pct = none := Option.not_isSome_iff_eq_none.mp (by simp [h4])
        replace h5 : folded.1.drum_rpm = none := Option.not_isSome_iff_eq_none.mp (by simp [h5])
        have hbt := foldl_fst_bt_c cfg record (init, ([] : List ExtraEntry))
        have het := foldl_fst_et_c cfg record (init, ([] : List ExtraEntry))
        have hpw := foldl_fst_power_pct cfg record (init, ([] : List ExtraEntry))
        have hfn := foldl_fst_fan_pct cfg record (init, ([] : List ExtraEntry))
        have hdr := foldl_fst_drum_rpm cfg record (init, ([] : List ExtraEntry))
        rw [← hfolded, match_bind_map] at hbt het
        rw [← hfolded, match_bind] at hpw hfn hdr
        refine ⟨?_, ?_, ?_, ?_, ?_, by rw [← hfm, he]⟩
        · have := hbt ▸ h1
          simpa using this
        · have := het ▸ h2
          simpa using this
        · exact hpw ▸ h3
        · exact hfn ▸ h4
        · exact hdr ▸ h5
    · exfalso
      rw [if_neg he] at h
      have hx : ({ folded.1 with extras := some folded.2 } : RawTelemetrySample).extras.isNone
          = false := rfl
      rw [hx] at h
      simp at h

/-- The only error `parse_timestamp` ever produces is `InvalidTimestamp`. -/
theorem parse_timestamp_error_eq (s : String) (e : ParseError)
    (h : parse_timestamp s = .error e) : e = ParseError.InvalidTimestamp := by
  unfold parse_timestamp at h
  split at h
  · split at h
    · dsimp only at h
      split at h
      · exact absurd h (by simp)
      · simpa using h.symm
    · simpa using h.symm
  · simpa using h.symm

/-- If a record contains a `ts` entry whose string fails to parse, the `ts`
scan fails the whole line with `InvalidTimestamp`, whatever the accumulator. -/
theorem findTsAux_mem_error (s : String)
    (hparse : parse_timestamp s = .error .InvalidTimestamp) :
    ∀ (record : List (String × Jval)) (acc : Option Int),
      ("ts", Jval.str s) ∈ record → findTsAux acc record = .error .InvalidTimestamp := by
  intro record
  induction record with
  | nil => intro acc hmem; simp at hmem
  | cons e rest ih =>
    intro acc hmem
    rcases List.mem_cons.mp hmem with heq | hmem'
    · rw [← heq]
      simp [findTsAux, hparse]
    · obtain ⟨k, v⟩ := e
      by_cases hk : k = "ts"
      · subst hk
        cases v with
        | str s2 =>
          cases hp : parse_timestamp s2 with
          | error e2 =>
            have he2 := parse_timestamp_error_eq s2 e2 hp
            subst he2
            simp [findTsAux, hp]
          | ok t =>
            simp only [findTsAux, if_pos rfl, hp]
            exact ih (some t) hmem'
        | num q =>
          simp only [findTsAux, if_pos rfl]
          exact ih acc hmem'
        | other =>
          simp only [findTsAux, if_pos rfl]
          exact ih acc hmem'
      · simp only [findTsAux, if_neg hk]
        exact ih acc hmem'

/-- If no `ts` entry of the record carries a string, the `ts` scan leaves the
accumulator untouched. -/
theorem findTsAux_no_str (record : List (String × Jval))
    (hno : ∀ s, ("ts", Jval.str s) ∉ record) :
    ∀ acc : Option Int, findTsAux acc record = .ok acc := by
  induction record with
  | nil => intro acc; rfl
  | cons e rest ih =>
    intro acc
    obtain ⟨k, v⟩ := e
    have hrest : ∀ s, ("ts", Jval.str s) ∉ rest := fun s hs =>
      hno s (List.mem_cons_of_mem _ hs)
    by_cases hk : k = "ts"
    · subst hk
      cases v with
      | str s => exact absurd (List.mem_cons_self _ _) (hno s)
      | num q =>
        simp only [findTsAux, if_pos rfl]
        exact ih hrest acc
      | other =>
        simp only [findTsAux, if_pos rfl]
        exact ih hrest acc
    · simp only [findTsAux, if_neg hk]
      exact ih hrest acc

/-- The record-building loop of `parse_csv_line` is a positional zip: entries
past the end of the column list are dropped. -/
theorem csv_record_aux_zip (columns : List String) :
    ∀ (parts : List String) (idx : Nat),
      csv_record_aux columns idx parts
        = ((columns.drop idx).zip parts).map (fun kv => (kv.1, Jval.str kv.2)) := by
  intro parts
  induction parts with
  | nil => intro idx; simp [csv_record_aux]
  | cons v rest ih =>
    intro idx
    cases hg : columns.get? idx with
    | none =>
      have hg' : columns[idx]? = none := by
        rw [← List.get?_eq_getElem?]
        exact hg
      have hlen : columns.length ≤ idx := List.get?_eq_none.mp hg
      have h1 : columns.drop idx = [] := List.drop_eq_nil_iff.mpr hlen
      have h2 : columns.drop (idx + 1) = [] := List.drop_eq_nil_iff.mpr (by omega)
      simp [csv_record_aux, hg', ih, h1, h2]
    | some k =>
      have hg' : columns[idx]? = some k := by
        rw [← List.get?_eq_getElem?]
        exact hg
      have hlt : idx < columns.length := by
        by_contra hc
        rw [List.get?_eq_none.mpr (by omega)] at hg
        exact Option.noConfusion hg
      have hk : columns[idx] = k := by
        have hgg := hg'
        rw [List.getElem?_eq_getElem hlt] at hgg
        exact Option.some.inj hgg
      have hd : columns.drop idx = k :: columns.drop (idx + 1) := by
        rw [List.drop_eq_getElem_cons hlt, hk]
      simp [csv_record_aux, hg', ih, hd]

/-- The positional zip is the whole-list zip when starting at index 0. -/
theorem csv_record_zip (columns parts : List String) :
    csv_record columns parts
      = (columns.zip parts).map (fun kv => (kv.1, Jval.str kv.2)) := by
  rw [csv_record, csv_record_aux_zip]
  simp

/-- Claim C1: for every record reaching `to_sample` (the parsed JSON object of
a JSONL line, or the zipped CSV row — `parse_json_line` hands the decoded
entries to `to_sample` verbatim), the `btC`/`etC` channels of a produced
sample equal the parsed wire value plus the configured offset,
`powerPct`/`fanPct`/`drumRpm` are parsed without offset, and a channel whose
key is absent (or whose value is an empty string, which parses to nothing) is
absent from the sample; moreover a parsed `btC` value guarantees a sample is
produced. -/
theorem to_sample_channel_spec (cfg : TcpLineDriverConfig) (now : Int)
    (record : List (String × Jval)) (r : Option RawTelemetrySample)
    (h : to_sample cfg now record = .ok r) :
    (∀ s, r = some s →
      s.bt_c = ((lastVal "btC" record).bind parse_number).map (fun x => x + cfg.offsets.bt_c)
      ∧ s.et_c = ((lastVal "etC" record).bind parse_number).map (fun x => x + cfg.offsets.et_c)
      ∧ s.power_pct = (lastVal "powerPct" record).bind parse_number
      ∧ s.fan_pct = (lastVal "fanPct" record).bind parse_number
      ∧ s.drum_rpm = (lastVal "drumRpm" record).bind parse_number)
    ∧ (((lastVal "btC" record).bind parse_number).isSome = true → ∃ s, r = some s)
    ∧ (∀ (line : String) (entries : List (String × Jval))
          (jsonDecode : String → Option (List (String × Jval))),
        jsonDecode line = some entries →
        parse_json_line cfg jsonDecode now line = to_sample cfg now entries) := by
  refine ⟨?_, ?_, ?_⟩
  · intro s hs
    subst hs
    obtain ⟨-, hbt, het, hpw, hfn, hdr, -, -⟩ := to_sample_some_elim cfg now record s h
    exact ⟨hbt, het, hpw, hfn, hdr⟩
  · intro hsome
    cases r with
    | some s => exact ⟨s, rfl⟩
    | none =>
      exfalso
      obtain ⟨hbt, -, -, -, -, -⟩ := to_sample_none_elim cfg now record h
      rw [hbt] at hsome
      simp at hsome
  · intro line entries jsonDecode hdec
    simp [parse_json_line, hdec]

/-- Claim C1 witness: `to_sample_channel_spec` on the concrete record `recC1`
under `cfgStd` (offset 2 on `btC`): the numeric string "10" becomes 12, the
number 20 stays 20 (offset 0), the remaining channels are absent. -/
theorem to_sample_channel_spec_witness :
    to_sample cfgStd 0 recC1 = .ok (some sC1)
    ∧ (sC1.bt_c = ((lastVal "btC" recC1).bind parse_number).map
          (fun x => x + cfgStd.offsets.bt_c)
      ∧ sC1.et_c = ((lastVal "etC" recC1).bind parse_number).map
          (fun x => x + cfgStd.offsets.et_c)
      ∧ sC1.power_pct = (lastVal "powerPct" recC1).bind parse_number
      ∧ sC1.fan_pct = (lastVal "fanPct" recC1).bind parse_number
      ∧ sC1.drum_rpm = (lastVal "drumRpm" recC1).bind parse_number) := by
  have hts : findTs recC1 = .ok none := by decide
  have hp1 : parse_number (Jval.str "10") = some 10 := by
    simp [parse_number, parseF64String, digitsToNat, dv]
  have hp2 : parse_number (Jval.num 20) = some 20 := rfl
  have hp3 : extraEntryOf "roastId" (Jval.str " r42 ")
      = some { key := "roastId", number_value := none, text_value := some "r42" } := by
    decide
  have hEq : to_sample cfgStd 0 recC1 = .ok (some sC1) := by
    simp only [to_sample, hts]
    simp only [recC1, List.foldl_cons, List.foldl_nil]
    simp [applyField, hp1, hp2, hp3, cfgStd, sC1]
    norm_num
  exact ⟨hEq, (to_sample_channel_spec cfgStd 0 recC1 (some sC1) hEq).1 sC1 rfl⟩

/-- Claim C2 counterexample: the record of the valid JSON line
`{"ts": 5, "powerPct": 40}` carries a `ts` value (the number 5) that cannot be
parsed as a date-time-with-offset timestamp, yet `to_sample` does not fail
with `InvalidTimestamp`: the non-string value is silently ignored and the
sample is produced with the processing-time instant (1234 here). -/
theorem to_sample_nonstring_ts_cex :
    ("ts", Jval.num 5) ∈ recNumTs
    ∧ to_sample cfgStd 1234 recNumTs
        = .ok (some { ts := 1234, bt_c := none, et_c := none, power_pct := some 40,
                      fan_pct := none, drum_rpm := none, extras := none }) := by
  constructor
  · decide
  · decide

/-- Claim C2 (amended: only a `ts` field carrying a *string* value is parsed
as a timestamp — non-string `ts` values are ignored): a `ts` entry whose
string fails timestamp parsing fails the whole line with `InvalidTimestamp`;
when no `ts` entry carries a string (in particular when `ts` is absent), a
produced sample's timestamp defaults to the moment of processing. -/
theorem to_sample_ts_spec (cfg : TcpLineDriverConfig) (now : Int)
    (record : List (String × Jval)) :
    (∀ s, ("ts", Jval.str s) ∈ record → parse_timestamp s = .error .InvalidTimestamp →
       to_sample cfg now record = .error .InvalidTimestamp)
    ∧ ((∀ s, ("ts", Jval.str s) ∉ record) →
       ∀ smp, to_sample cfg now record = .ok (some smp) → smp.ts = now) := by
  constructor
  · intro s hmem hparse
    have hft : findTs record = .error .InvalidTimestamp :=
      findTsAux_mem_error s hparse record none hmem
    simp [to_sample, hft]
  · intro hno smp hok
    obtain ⟨⟨tsv, htsv, hts⟩, -⟩ := to_sample_some_elim cfg now record smp hok
    have hfind : findTs record = .ok none := findTsAux_no_str record hno none
    rw [hfind] at htsv
    cases htsv
    simpa using hts

/-- Claim C2 witness: `to_sample_ts_spec` on a record with an unparsable
string `ts` (line fails) and on a record with no `ts` at all (timestamp
defaults to the processing instant 99). -/
theorem to_sample_ts_spec_witness :
    (("ts", Jval.str "not-a-date") ∈ [(("ts" : String), Jval.str "not-a-date")]
      ∧ parse_timestamp "not-a-date" = .error .InvalidTimestamp
      ∧ to_sample cfgStd 7 [(("ts" : String), Jval.str "not-a-date")]
          = .error .InvalidTimestamp)
    ∧ (to_sample cfgStd 99 [(("powerPct" : String), Jval.num 40)] = .ok (some sPw)
      ∧ sPw.ts = 99) := by
  have hnostr : ∀ s, ("ts", Jval.str s) ∉ [(("powerPct" : String), Jval.num 40)] := by
    intro s hs
    simp at hs
  constructor
  · exact ⟨by decide, by decide,
      (to_sample_ts_spec cfgStd 7 [(("ts" : String), Jval.str "not-a-date")]).1
        "not-a-date" (by decide) (by decide)⟩
  · exact ⟨by decide, (to_sample_ts_spec cfgStd 99 [(("powerPct" : String), Jval.num 40)]).2
      hnostr sPw (by decide)⟩

/-- Claim C5: in CSV format with a header expected and not yet consumed, the
first non-empty line produces no sample and its delimiter-split, trimmed
tokens become the active column list; afterwards every line is split on the
configured delimiter, each part trimmed, and zipped positionally with the
active column list — parts past the end of the column list are dropped by the
zip. -/
theorem csv_header_zip_spec :
    (∀ (p : TcpLineParserState) (jsonDecode : String → Option (List (String × Jval)))
        (now : Int) (line : String),
      p.config.format = .csv → p.config.csv.has_header = true →
      p.csv_header_parsed = false → trimString line ≠ "" →
      parse_line p jsonDecode now line =
        ({ p with
            csv_columns := (splitString p.config.csv.delimiter (trimString line)).map trimString
            csv_header_parsed := true }, .ok none))
    ∧ (∀ (p : TcpLineParserState) (now : Int) (line : String),
      p.csv_header_parsed = true → p.csv_columns ≠ [] →
      parse_csv_line p now line =
        (p, to_sample p.config now
          ((p.csv_columns.zip ((splitString p.config.csv.delimiter line).map trimString)).map
            (fun kv => (kv.1, Jval.str kv.2))))) := by
  constructor
  · intro p jsonDecode now line hfmt hhdr hflag hne
    rw [parse_line]
    simp only [hne, if_false, hfmt]
    rw [parse_csv_line]
    simp [hhdr, hflag]
  · intro p now line hflag hcols
    rw [parse_csv_line]
    simp only [hflag, Bool.not_true, Bool.and_false, Bool.false_eq_true, if_false,
      if_pos hcols, csv_record_zip]

/-- Claim C5 witness: `csv_header_zip_spec` on a fresh parser for `cfgCsv`:
the header line " ts , btC ,x" sets the columns to ["ts", "btC", "x"] and
produces no sample; with the header consumed, a data row is parsed from the
zip of the active columns with its trimmed parts. -/
theorem csv_header_zip_spec_witness :
    (pCsv.config.format = .csv ∧ pCsv.config.csv.has_header = true
      ∧ pCsv.csv_header_parsed = false ∧ trimString " ts , btC ,x" ≠ ""
      ∧ parse_line pCsv jsonDecodeNone 0 " ts , btC ,x"
          = ({ pCsv with
                csv_columns := (splitString pCsv.config.csv.delimiter
                  (trimString " ts , btC ,x")).map trimString
                csv_header_parsed := true }, .ok none)
      ∧ (splitString pCsv.config.csv.delimiter (trimString " ts , btC ,x")).map trimString
          = ["ts", "btC", "x"])
    ∧ (pCsvHdr.csv_header_parsed = true ∧ pCsvHdr.csv_columns ≠ []
      ∧ parse_csv_line pCsvHdr 0 "x,y,z,ignored"
          = (pCsvHdr, to_sample pCsvHdr.config 0
              ((pCsvHdr.csv_columns.zip ((splitString pCsvHdr.config.csv.delimiter
                  "x,y,z,ignored").map trimString)).map
                (fun kv => (kv.1, Jval.str kv.2))))) := by
  constructor
  · refine ⟨rfl, rfl, rfl, by decide,
      (csv_header_zip_spec).1 pCsv jsonDecodeNone 0 " ts , btC ,x" rfl rfl rfl (by decide),
      by decide⟩
  · exact ⟨rfl, by decide,
      (csv_header_zip_spec).2 pCsvHdr 0 "x,y,z,ignored" rfl (by decide)⟩

/-- Claim C9: a line whose trim is empty produces no sample and no error; a
record yielding no populated channel and no extras produces no sample (and no
error, whenever timestamp parsing did not already fail the line); and every
produced sample carries at least one populated channel or some extras. -/
theorem parse_line_empty_spec :
    (∀ (p : TcpLineParserState) (jsonDecode : String → Option (List (String × Jval)))
        (now : Int) (line : String), trimString line = "" →
      parse_line p jsonDecode now line = (p, .ok none))
    ∧ (∀ (cfg : TcpLineDriverConfig) (now : Int) (record : List (String × Jval))
        (r : Option RawTelemetrySample), noInfo record →
      to_sample cfg now record = .ok r → r = none)
    ∧ (∀ (cfg : TcpLineDriverConfig) (now : Int) (record : List (String × Jval))
        (s : RawTelemetrySample), to_sample cfg now record = .ok (some s) →
      s.bt_c.isSome = true ∨ s.et_c.isSome = true ∨ s.power_pct.isSome = true
        ∨ s.fan_pct.isSome = true ∨ s.drum_rpm.isSome = true ∨ s.extras.isSome = true) := by
  refine ⟨?_, ?_, ?_⟩
  · intro p jsonDecode now line hline
    rw [parse_line]
    simp [hline]
  · intro cfg now record r hni hok
    cases r with
    | none => rfl
    | some s =>
      exfalso
      obtain ⟨-, hbt, het, hpw, hfn, hdr, hex, hinfo⟩ := to_sample_some_elim cfg now record s hok
      obtain ⟨n1, n2, n3, n4, n5, n6⟩ := hni
      rw [n6] at hex
      rcases hinfo with hh | hh | hh | hh | hh | hh
      · rw [hbt, n1] at hh
        simp at hh
      · rw [het, n2] at hh
        simp at hh
      · rw [hpw, n3] at hh
        simp at hh
      · rw [hfn, n4] at hh
        simp at hh
      · rw [hdr, n5] at hh
        simp at hh
      · rw [hex] at hh
        simp at hh
  · intro cfg now record s hok
    exact (to_sample_some_elim cfg now record s hok).2.2.2.2.2.2.2

/-- Claim C9 witness: `parse_line_empty_spec` on a whitespace-only line under
a fresh JSONL parser, and on the record `recNoInfo` whose entries all parse to
nothing. -/
theorem parse_line_empty_spec_witness :
    (trimString "   " = ""
      ∧ parse_line (TcpLineParserState.new cfgStd) jsonDecodeNone 0 "   "
          = (TcpLineParserState.new cfgStd, .ok none))
    ∧ (noInfo recNoInfo
      ∧ to_sample cfgStd 0 recNoInfo = .ok none) := by
  refine ⟨⟨by decide, (parse_line_empty_spec).1 (TcpLineParserState.new cfgStd)
      jsonDecodeNone 0 "   " (by decide)⟩, ⟨by decide, by decide⟩⟩

end TcpLine
